import Mathlib

/-!
Shallow embedding of the pre-open scanner engine (`tara_engine.py`):
`prepare_data` (per-symbol shifts and rolling windows over the bar table
sorted by SYMBOL, DATE), `resample_to_weekly` (W-FRI aggregation of daily
bars plus weekly shifts/rollings), `run_signals` (the sequential signal
masks and the stop-loss stage) and `run_weekly_signals`.

Modelling conventions:
* prices and volumes are rationals; a pandas missing value (NaN) is `none`;
  a comparison with a missing operand is `false`, exactly as in pandas;
* the TIMESTAMP column is modelled post-`pd.to_datetime`: `ts = some d`
  when the timestamp parses to day number `d`, `none` when parsing fails
  (in which case `pd.to_datetime`, called without `errors=`, raises);
* day numbers with `d % 7 = 0` are Fridays, so a `W-FRI` calendar week is
  a bucket of the `weekEnd` function below;
* `df.groupby('SYMBOL')` after `sort_values(['SYMBOL','DATE'])` is modelled
  by concatenating, in ascending symbol order, each symbol's date-sorted
  rows; grouped shift/rolling operate inside one symbol's rows, while the
  *ungrouped* shift/rolling calls of `run_signals` (lines 137/151/167/180,
  230 and 243 of the source) operate on the concatenated table.
-/

attribute [local semireducible] Rat.add Rat.mul Rat.inv Rat.sub

/-- One input row of the bar table (one entity, one trading day). -/
structure Bar where
  symbol : String
  ts : Option Nat
  op : ℚ
  hi : ℚ
  lo : ℚ
  cl : ℚ
  vol : ℚ
deriving DecidableEq, Inhabited

/-- The parsed DATE of a bar (only meaningful when `ts` is `some`). -/
def tsD (b : Bar) : Nat := b.ts.getD 0

/-- Date order used by `sort_values(by=['SYMBOL','DATE'])` within one symbol. -/
def barLE (a b : Bar) : Prop := tsD a ≤ tsD b

instance : DecidableRel barLE := fun a b => Nat.decLe (tsD a) (tsD b)

instance : IsTotal Bar barLE := ⟨fun a b => Nat.le_total (tsD a) (tsD b)⟩

instance : IsTrans Bar barLE := ⟨fun _ _ _ => Nat.le_trans⟩

/-- One symbol's rows of the table, in DATE order (the effect of
`sort_values(['SYMBOL','DATE'])` followed by `groupby('SYMBOL')`). -/
def entityRows (l : List Bar) (s : String) : List Bar :=
  List.insertionSort barLE (l.filter (fun b => b.symbol == s))

/-- Lexicographic comparison of char lists by code point. -/
def lexLe : List Char → List Char → Bool
  | [], _ => true
  | _ :: _, [] => false
  | a :: as, b :: bs =>
    decide (a.toNat < b.toNat) || ((a.toNat == b.toNat) && lexLe as bs)

/-- Ascending symbol order (the order `groupby('SYMBOL')` emits groups in). -/
def symLE (a b : String) : Prop := lexLe a.data b.data = true

instance : DecidableRel symLE := fun a b => instDecidableEqBool (lexLe a.data b.data) true

/-- The distinct symbols of the table in ascending order (pandas `groupby`
emits groups with sorted keys). -/
def symbolsOf (l : List Bar) : List String :=
  List.insertionSort symLE ((l.map (fun b => b.symbol)).dedup)

/-- Trailing rolling window of length `n` ending at position `i`:
`agg` over positions `[i-n+1, i]`, `none` (NaN) while fewer than `n`
observations exist — pandas `rolling(n)` with its default `min_periods`. -/
def roll {α : Type} (n : Nat) (f : α → ℚ) (step : ℚ → ℚ → ℚ) (xs : List α) (i : Nat) :
    Option ℚ :=
  if n ≤ i + 1 then
    match ((xs.drop (i + 1 - n)).take n).map f with
    | [] => none
    | x :: rest => some (rest.foldl step x)
  else none

/-- Trailing rolling mean of length `n` (pandas `rolling(n).mean()`). -/
def rollMean {α : Type} (n : Nat) (f : α → ℚ) (xs : List α) (i : Nat) : Option ℚ :=
  if n ≤ i + 1 then
    match ((xs.drop (i + 1 - n)).take n).map f with
    | [] => none
    | x :: rest => some ((rest.foldl (· + ·) x) / (n : ℚ))
  else none

/-- `shift(1)` inside one group: the value one position earlier, NaN at the
first position. -/
def prevField {α : Type} (xs : List α) (i : Nat) (f : α → ℚ) : Option ℚ :=
  match i with
  | 0 => none
  | j + 1 => (xs[j]?).map f

/-- `shift(2)` inside one group. -/
def prevField2 {α : Type} (xs : List α) (i : Nat) (f : α → ℚ) : Option ℚ :=
  match i with
  | 0 => none
  | 1 => none
  | j + 2 => (xs[j]?).map f

/-- A daily row after `prepare_data`: the bar plus the previous-day shifts,
the rolling volume means and the rolling extrema of the source
(lines 23-44).  `max1w` is the column `MAX_HIGH_1W` read by rule 8.
Modelled from the spec: `MAX_HIGH_1W` is never created by `prepare_data`
in the source (reading it raises a `KeyError`, see the C1 theorem); the
spec's catalogue calls it the 1-week (5-bar) rolling high, which is the
definition used here. -/
structure DRow where
  symbol : String
  dt : Nat
  op : ℚ
  hi : ℚ
  lo : ℚ
  cl : ℚ
  vol : ℚ
  pdo : Option ℚ
  pdh : Option ℚ
  pdl : Option ℚ
  pdc : Option ℚ
  pdvol : Option ℚ
  avol5 : Option ℚ
  avol10 : Option ℚ
  avol90 : Option ℚ
  min1w : Option ℚ
  min2w : Option ℚ
  min4w : Option ℚ
  min6w : Option ℚ
  max1w : Option ℚ
  max2w : Option ℚ
  max3w : Option ℚ
  max6w : Option ℚ
  max10w : Option ℚ
deriving DecidableEq, Inhabited

/-- The derived row at position `i` of one symbol's date-sorted bars. -/
def drow (bs : List Bar) (i : Nat) : DRow :=
  let b := bs.getD i default
  { symbol := b.symbol, dt := tsD b, op := b.op, hi := b.hi, lo := b.lo, cl := b.cl,
    vol := b.vol,
    pdo := prevField bs i (fun x => x.op),
    pdh := prevField bs i (fun x => x.hi),
    pdl := prevField bs i (fun x => x.lo),
    pdc := prevField bs i (fun x => x.cl),
    pdvol := prevField bs i (fun x => x.vol),
    avol5 := rollMean 5 (fun x => x.vol) bs i,
    avol10 := rollMean 10 (fun x => x.vol) bs i,
    avol90 := rollMean 90 (fun x => x.vol) bs i,
    min1w := roll 5 (fun x => x.lo) min bs i,
    min2w := roll 10 (fun x => x.lo) min bs i,
    min4w := roll 20 (fun x => x.lo) min bs i,
    min6w := roll 30 (fun x => x.lo) min bs i,
    max1w := roll 5 (fun x => x.hi) max bs i,
    max2w := roll 10 (fun x => x.hi) max bs i,
    max3w := roll 15 (fun x => x.hi) max bs i,
    max6w := roll 30 (fun x => x.hi) max bs i,
    max10w := roll 50 (fun x => x.hi) max bs i }

/-- All derived rows of one symbol (grouped shift/rolling never cross
symbols: each feature is computed from `bs` only). -/
def deriveRows (bs : List Bar) : List DRow :=
  (List.range bs.length).map (drow bs)

/-- The full prepared table: each symbol's derived rows, concatenated in
ascending symbol order (the row order `run_signals` sees). -/
def prepRows (l : List Bar) : List DRow :=
  (symbolsOf l).flatMap (fun s => deriveRows (entityRows l s))

/-- A prepared row together with the *ungrouped* whole-table features used
by the masks: `MIN_LOW_2W.shift(1)`, `MIN_LOW_6W.shift(1)`,
`MAX_HIGH_2W.shift(1)`, `MAX_HIGH_6W.shift(1)` (source lines 137, 167,
151, 180), `TOTTRDQTY.rolling(3).max()` (line 230) and
`TOTTRDQTY.shift(2)` (line 243).  These `df[...].shift/rolling` calls are
made on the flat table, so they can cross a symbol boundary. -/
structure GRow extends DRow where
  s1min2 : Option ℚ
  s1min6 : Option ℚ
  s1max2 : Option ℚ
  s1max6 : Option ℚ
  vol3max : Option ℚ
  vols2 : Option ℚ
deriving DecidableEq, Inhabited

/-- Build the `GRow` of a row from the two flat rows preceding it. -/
def mkG (p2 p1 : Option DRow) (r : DRow) : GRow :=
  { toDRow := r,
    s1min2 := p1.bind (fun x => x.min2w),
    s1min6 := p1.bind (fun x => x.min6w),
    s1max2 := p1.bind (fun x => x.max2w),
    s1max6 := p1.bind (fun x => x.max6w),
    vol3max := match p2, p1 with
      | some a, some b => some (max (max a.vol b.vol) r.vol)
      | _, _ => none,
    vols2 := p2.map (fun x => x.vol) }

/-- Attach the whole-table features, threading the two previous flat rows. -/
def attachG : Option DRow → Option DRow → List DRow → List GRow
  | _, _, [] => []
  | p2, p1, r :: rest => mkG p2 p1 r :: attachG p1 (some r) rest

/-- The flat prepared table with whole-table features. -/
def gRows (l : List Bar) : List GRow :=
  attachG none none (prepRows l)

/-- Pandas comparison `a < b` with NaN semantics: false if either side NaN. -/
def olt : Option ℚ → Option ℚ → Bool
  | some a, some b => decide (a < b)
  | _, _ => false

/-- Pandas comparison `a ≤ b` with NaN semantics. -/
def ole : Option ℚ → Option ℚ → Bool
  | some a, some b => decide (a ≤ b)
  | _, _ => false

/-- Pandas comparison `a == b` with NaN semantics. -/
def oeq : Option ℚ → Option ℚ → Bool
  | some a, some b => decide (a = b)
  | _, _ => false

/-- Multiply a possibly-missing value by a constant. -/
def omul (x : Option ℚ) (k : ℚ) : Option ℚ := x.map (fun a => a * k)

/-- Rule 1, `U TURN (BUY)` (source lines 108-114): note the third conjunct
compares today's close with the *previous* day's open `PDO`. -/
def mask_s1 (g : GRow) : Bool :=
  olt (omul g.pdc (10015/10000)) (some g.cl) &&
  olt (some g.op) (omul g.pdl (9975/10000)) &&
  olt g.pdo (some g.cl) &&
  ole (some g.lo) g.min4w &&
  olt (omul g.pdvol (12/10)) (some g.vol)

/-- Rule 2, `U TURN (SELL)` (source lines 120-128). -/
def mask_s2 (g : GRow) : Bool :=
  olt (some g.cl) (omul g.pdc (9985/10000)) &&
  olt (omul g.pdh (10015/10000)) (some g.op) &&
  olt (some g.cl) g.pdo &&
  ole g.max3w (some g.hi) &&
  decide ((2 : ℚ) < g.cl) &&
  olt (omul g.pdvol (12/10)) (some g.vol) &&
  decide ((500000 : ℚ) < g.vol)

/-- Rule 3, `JUMP START (BUY)` (source lines 134-142): the 2-week-low test
uses the *ungrouped* `MIN_LOW_2W.shift(1)`. -/
def mask_s3 (g : GRow) : Bool :=
  olt (omul g.pdh (1001/1000)) (some g.op) &&
  decide (g.op < g.cl) &&
  ole g.pdl g.s1min2 &&
  olt g.pdh (some g.lo) &&
  olt (some g.hi) (omul g.max10w (97/100)) &&
  olt g.pdvol (some g.vol) &&
  decide ((500000 : ℚ) < g.vol)

/-- Rule 4, `JUMP START (FREE FALL)` (source lines 148-156). -/
def mask_s4 (g : GRow) : Bool :=
  olt (some g.op) (omul g.pdl (999/1000)) &&
  decide (g.cl < g.op) &&
  ole g.s1max2 g.pdh &&
  olt (some g.hi) g.pdl &&
  olt (some (100000 : ℚ)) g.avol10 &&
  decide ((5 : ℚ) < g.cl) &&
  olt g.pdvol (some g.vol)

/-- Rule 5, `FULL STOP (BUY)` (source lines 162-170). -/
def mask_s5 (g : GRow) : Bool :=
  olt (omul g.pdc (1001/1000)) (some g.lo) &&
  olt (some g.lo) g.pdh &&
  decide (g.op < g.cl) &&
  olt g.pdh (some g.cl) &&
  ole g.pdl g.s1min6 &&
  olt g.pdvol (some g.vol) &&
  decide ((500000 : ℚ) < g.vol)

/-- Rule 6, `FULL STOP (SELL)` (source lines 176-183). -/
def mask_s6 (g : GRow) : Bool :=
  olt (some g.hi) (omul g.pdc (999/1000)) &&
  olt g.pdl (some g.hi) &&
  decide (g.cl < g.op) &&
  ole g.s1max6 g.pdh &&
  olt g.pdvol (some g.vol) &&
  decide ((500000 : ℚ) < g.vol)

/-- Rule 7, `TURN AROUND (BUY)` (source lines 190-196). -/
def mask_s7 (g : GRow) : Bool :=
  olt (some g.op) g.pdl &&
  olt g.pdc (some g.cl) &&
  oeq (some g.lo) g.min1w &&
  olt g.avol5 (some g.vol)

/-- Rule 8, `TURN AROUND (SELL)` (source lines 202-207): reads the
`MAX_HIGH_1W` column, which `prepare_data` never creates (see C1). -/
def mask_s8 (g : GRow) : Bool :=
  oeq (some g.hi) g.max1w &&
  olt g.pdh (some g.op) &&
  olt (some g.cl) g.pdc &&
  olt g.avol5 (some g.vol)

/-- Rule 9, `REVERSE (BUY)` (source lines 213-221). -/
def mask_s9 (g : GRow) : Bool :=
  olt (omul g.pdc (1002/1000)) (some g.cl) &&
  oeq (some g.lo) g.min1w &&
  olt (some g.lo) (omul g.pdl (9925/10000)) &&
  decide (g.op * (1002/1000) < g.cl) &&
  olt (omul g.avol5 (12/10)) (some g.vol) &&
  decide ((500000 : ℚ) < g.vol) &&
  decide ((6/10 : ℚ) < g.cl)

/-- Rule 15, `GAP (BUY)` (source lines 227-233): the volume test compares
with the *ungrouped* `TOTTRDQTY.rolling(3).max()`. -/
def mask_s15 (g : GRow) : Bool :=
  olt (omul g.pdh (101/100)) (some g.lo) &&
  decide (g.op < g.cl) &&
  oeq (some g.vol) g.vol3max &&
  olt (some (200000 : ℚ)) g.avol10 &&
  decide ((40 : ℚ) < g.cl)

/-- Rule 18, `VOLUME SPIKE` (source lines 242-250): the two-days-ago volume
is the *ungrouped* `TOTTRDQTY.shift(2)`; `between(5, 250)` is inclusive. -/
def mask_s18 (g : GRow) : Bool :=
  olt (omul g.vols2 4) g.pdvol &&
  olt (some g.vol) (omul g.pdvol (75/100)) &&
  olt (some (200000 : ℚ)) g.avol90 &&
  decide ((5 : ℚ) ≤ g.cl ∧ g.cl ≤ (250 : ℚ))

/-- The daily rules in the order `run_signals` evaluates them
(1, 2, 3, 4, 5, 6, 7, 8, 9, 15, 18). -/
def dailyRules : List ((GRow → Bool) × String) :=
  [(mask_s1, "U-Turn (Buy)"),
   (mask_s2, "U-Turn (Sell)"),
   (mask_s3, "Jump Start (Buy)"),
   (mask_s4, "Jump Start (Sell)"),
   (mask_s5, "Full Stop (Buy)"),
   (mask_s6, "Full Stop (Sell)"),
   (mask_s7, "Turn Around (Buy)"),
   (mask_s8, "Turn Around (Sell)"),
   (mask_s9, "Reverse (Buy)"),
   (mask_s15, "Gap (Buy)"),
   (mask_s18, "Volume Spike")]

/-- Sequential `df.loc[mask, 'SIGNAL'] = name` writes: per row, each rule
whose mask holds overwrites the label written by the rules before it. -/
def assignSeq {α : Type} (rules : List ((α → Bool) × String)) (r : α) : Option String :=
  rules.foldl (fun acc p => if p.1 r then some p.2 else acc) none

/-- The daily SIGNAL value for one row. -/
def assignDaily (g : GRow) : Option String := assignSeq dailyRules g

/-- One row of a result table: the bar columns kept by the output plus the
SIGNAL and STOP_LOSS columns (`stop_loss = none` models an absent /
never-assigned STOP_LOSS entry). -/
structure OutRow where
  symbol : String
  op : ℚ
  hi : ℚ
  lo : ℚ
  cl : ℚ
  vol : ℚ
  signal : Option String
  stop_loss : Option ℚ
deriving DecidableEq, Inhabited

/-- Char-list prefix test. -/
def prefOf : List Char → List Char → Bool
  | [], _ => true
  | _ :: _, [] => false
  | a :: as, b :: bs => (a == b) && prefOf as bs

/-- Char-list substring test. -/
def hasSub : List Char → List Char → Bool
  | pat, [] => prefOf pat []
  | pat, c :: t => prefOf pat (c :: t) || hasSub pat t

/-- `series.str.contains(pat)` for a plain (non-regex-special) pattern. -/
def strContains (s pat : String) : Bool := hasSub pat.data s.data

/-- Labelled row before the stop-loss stage. -/
def toOut (g : GRow) : OutRow :=
  { symbol := g.symbol, op := g.op, hi := g.hi, lo := g.lo, cl := g.cl, vol := g.vol,
    signal := assignDaily g, stop_loss := none }

/-- Stop-loss stage (source lines 259-261): rows whose SIGNAL contains
`'Buy'` get `LOW * 0.995`, all other rows get `HIGH * 1.005`. -/
def addSL (r : OutRow) : OutRow :=
  { r with
    stop_loss := some ((if strContains (r.signal.getD "") "Buy" then r.lo * (995/1000)
      else r.hi * (1005/1000))) }

/-- `run_signals` after the `pd.to_datetime` step: label every prepared
row, keep the rows with a SIGNAL (`df[df['SIGNAL'].notna()]`), add
STOP_LOSS. -/
def runDailyOut (l : List Bar) : List OutRow :=
  ((((gRows l).map toOut).filter (fun r => r.signal.isSome)).map addSL)

/-- The error message of a failed `pd.to_datetime` call. -/
def parseErr : String := "ValueError: unparseable TIMESTAMP"

/-- `run_signals`: `prepare_data` first calls `pd.to_datetime` (line 16)
without `errors=`, so an unparseable TIMESTAMP raises and aborts the call. -/
def run_signals (l : List Bar) : Except String (List OutRow) :=
  if l.all (fun b => b.ts.isSome) then .ok (runDailyOut l) else .error parseErr

/-- The Friday (day number ≡ 0 mod 7) ending the calendar week of day `d`:
the `W-FRI` resampling bucket key. -/
def weekEnd (d : Nat) : Nat := d + (7 - d % 7) % 7

/-- The W-FRI bucket key of a bar. -/
def weekEndOf (b : Bar) : Nat := weekEnd (tsD b)

/-- One weekly aggregate row (`resample('W-FRI').agg(...)` output, renamed
TWO/TWH/TWL/TWC in the source). -/
structure WBar where
  symbol : String
  wkEnd : Nat
  two : ℚ
  twh : ℚ
  twl : ℚ
  twc : ℚ
  wvol : ℚ
deriving DecidableEq, Inhabited

/-- The daily bars of one W-FRI week. -/
def wbucket (bars : List Bar) (k : Nat) : List Bar :=
  bars.filter (fun b => weekEndOf b == k)

/-- Aggregate one week: OPEN first, HIGH max, LOW min, CLOSE last,
TOTTRDQTY sum; an empty week has NaN aggregates and is removed by the
`.dropna()` of the source (line 59), hence `none`. -/
def aggWeek (s : String) (bars : List Bar) (k : Nat) : Option WBar :=
  match wbucket bars k with
  | [] => none
  | b :: bs =>
    some { symbol := s, wkEnd := k,
           two := b.op,
           twh := bs.foldl (fun a x => max a x.hi) b.hi,
           twl := bs.foldl (fun a x => min a x.lo) b.lo,
           twc := (bs.getLastD b).cl,
           wvol := bs.foldl (fun a x => a + x.vol) b.vol }

/-- The emitted weekly rows of one symbol: one row per week that contains
at least one trading day, in chronological order (`resample('W-FRI')`
emits every week in range, `.dropna()` then removes the empty ones). -/
def resampleEntity (s : String) (bars : List Bar) : List WBar :=
  ((bars.map weekEndOf).dedup).filterMap (aggWeek s bars)

/-- Modelled from the spec and source line 280: the weekly value of
`daily_df.groupby('SYMBOL')['CLOSE'].shift(1).resample('W-FRI').last()`,
i.e. the daily close preceding the week's last trading day.  On the raw
integer-indexed frame this source line actually raises (resampling needs a
DatetimeIndex — part of the C1 divergence); no theorem below depends on
this value. -/
def approxPrevClose (daily : List Bar) (k : Nat) : Option ℚ :=
  ((daily.filter (fun b => decide (weekEndOf b ≤ k))).dropLast.getLast?).map (fun b => b.cl)

/-- A weekly row after the shifts and rolling lookbacks of
`resample_to_weekly` (source lines 67-81): previous-week (`PW*`) and
two-weeks-prior (`QW*`) OHLC, `WK_LOW_7W = rolling(7).min` of the week
low, `WK_HIGH_5W = rolling(5).min` of the week high (the source computes
a *min* here despite the name), `WK_HIGH_10W = rolling(10).max`. -/
structure WRow where
  symbol : String
  wkEnd : Nat
  two : ℚ
  twh : ℚ
  twl : ℚ
  twc : ℚ
  wvol : ℚ
  pwo : Option ℚ
  pwh : Option ℚ
  pwl : Option ℚ
  pwc : Option ℚ
  qwo : Option ℚ
  qwh : Option ℚ
  qwl : Option ℚ
  qwc : Option ℚ
  wkLow7 : Option ℚ
  wkHigh5 : Option ℚ
  wkHigh10 : Option ℚ
  approx11 : Option ℚ
deriving DecidableEq, Inhabited

/-- The weekly derived row at position `i` of one symbol's weekly series. -/
def wrow (daily : List Bar) (ws : List WBar) (i : Nat) : WRow :=
  let w := ws.getD i default
  { symbol := w.symbol, wkEnd := w.wkEnd, two := w.two, twh := w.twh, twl := w.twl,
    twc := w.twc, wvol := w.wvol,
    pwo := prevField ws i (fun x => x.two),
    pwh := prevField ws i (fun x => x.twh),
    pwl := prevField ws i (fun x => x.twl),
    pwc := prevField ws i (fun x => x.twc),
    qwo := prevField2 ws i (fun x => x.two),
    qwh := prevField2 ws i (fun x => x.twh),
    qwl := prevField2 ws i (fun x => x.twl),
    qwc := prevField2 ws i (fun x => x.twc),
    wkLow7 := roll 7 (fun x => x.twl) min ws i,
    wkHigh5 := roll 5 (fun x => x.twh) min ws i,
    wkHigh10 := roll 10 (fun x => x.twh) max ws i,
    approx11 := approxPrevClose daily w.wkEnd }

/-- All weekly derived rows of one symbol. -/
def deriveW (daily : List Bar) (ws : List WBar) : List WRow :=
  (List.range ws.length).map (wrow daily ws)

/-- The weekly table `run_weekly_signals` evaluates its masks on. -/
def wRows (l : List Bar) : List WRow :=
  (symbolsOf l).flatMap (fun s => deriveW (entityRows l s) (resampleEntity s (entityRows l s)))

/-- Rule 11, `WEEKLY REVERSAL (BUY)` (source lines 277-290). -/
def mask_w11 (w : WRow) : Bool :=
  olt (omul w.pwc (1005/1000)) (some w.twc) &&
  decide (w.two * (1005/1000) < w.twc) &&
  olt (omul w.approx11 (101/100)) (some w.twc) &&
  olt (omul w.pwo (1005/1000)) (some w.twc) &&
  olt w.pwl w.qwl &&
  olt w.pwc w.pwo &&
  olt w.qwc w.qwo &&
  ole (some w.twl) w.wkLow7 &&
  olt (some w.twl) (omul w.pwl (98/100)) &&
  decide ((500000 : ℚ) < w.wvol) &&
  decide ((2 : ℚ) < w.twc) &&
  olt (some w.twc) (omul w.wkHigh10 (85/100))

/-- Rule 13, `3-WEEK REVERSAL (BUY)` (source lines 294-302): beside the
three conditions of the claim it also requires `TWC > TWO * 1.01` and the
two-week downtrend `PWL < QWL`, `PWC < PWO`, `QWC < QWO`. -/
def mask_w13 (w : WRow) : Bool :=
  olt w.pwh (some w.twc) &&
  olt w.qwc (some w.twc) &&
  decide (w.two * (101/100) < w.twc) &&
  olt w.pwl w.qwl &&
  olt w.pwc w.pwo &&
  olt w.qwc w.qwo &&
  decide ((500000 : ℚ) < w.wvol)

/-- The weekly rules in evaluation order (11 then 13). -/
def weeklyRules : List ((WRow → Bool) × String) :=
  [(mask_w11, "Weekly Reversal (Buy)"),
   (mask_w13, "3-Week Reversal (Buy)")]

/-- The weekly SIGNAL value for one row. -/
def assignWeekly (w : WRow) : Option String := assignSeq weeklyRules w

/-- One output row of `run_weekly_signals`: the weekly columns plus SIGNAL.
The source computes no STOP_LOSS in the weekly engine, so `stop_loss` is
always `none` (the returned frame has no STOP_LOSS column). -/
structure WOut where
  symbol : String
  wkEnd : Nat
  two : ℚ
  twh : ℚ
  twl : ℚ
  twc : ℚ
  wvol : ℚ
  signal : Option String
  stop_loss : Option ℚ
deriving DecidableEq, Inhabited

/-- Label a weekly row (no stop-loss stage exists in the weekly engine). -/
def toWOut (w : WRow) : WOut :=
  { symbol := w.symbol, wkEnd := w.wkEnd, two := w.two, twh := w.twh, twl := w.twl,
    twc := w.twc, wvol := w.wvol, signal := assignWeekly w, stop_loss := none }

/-- `run_weekly_signals` after date parsing: label the weekly rows and keep
those with a SIGNAL (`wk[wk['SIGNAL'].notna()]`). -/
def runWeeklyOut (l : List Bar) : List WOut :=
  ((wRows l).map toWOut).filter (fun r => r.signal.isSome)

/-- `run_weekly_signals` (dates must have been parsed upstream). -/
def run_weekly_signals (l : List Bar) : Except String (List WOut) :=
  if l.all (fun b => b.ts.isSome) then .ok (runWeeklyOut l) else .error parseErr

/-- The columns of a well-formed input bar table. -/
def input_columns : List String :=
  ["SYMBOL", "TIMESTAMP", "OPEN", "HIGH", "LOW", "CLOSE", "TOTTRDQTY"]

/-- The columns `prepare_data` creates (source lines 16-44). -/
def prepare_data_assigned_columns : List String :=
  ["DATE", "PDO", "PDH", "PDL", "PDC", "PD_VOL", "AVG_VOL_5", "AVG_VOL_10", "AVG_VOL_90",
   "MIN_LOW_1W", "MIN_LOW_2W", "MIN_LOW_4W", "MIN_LOW_6W",
   "MAX_HIGH_2W", "MAX_HIGH_3W", "MAX_HIGH_6W", "MAX_HIGH_10W"]

/-- The columns `run_signals` itself assigns (lines 115-261). -/
def run_signals_assigned_columns : List String := ["SIGNAL", "STOP_LOSS"]

/-- Every `df[...]` column `run_signals` reads (lines 98-261). -/
def run_signals_read_columns : List String :=
  ["OPEN", "CLOSE", "LOW", "HIGH", "TOTTRDQTY", "PDO", "PDC", "PDL", "PDH", "PD_VOL",
   "MIN_LOW_4W", "MAX_HIGH_3W", "MIN_LOW_2W", "MAX_HIGH_10W", "MAX_HIGH_2W", "AVG_VOL_10",
   "MIN_LOW_6W", "MAX_HIGH_6W", "MIN_LOW_1W", "MAX_HIGH_1W", "AVG_VOL_5", "AVG_VOL_90",
   "SIGNAL"]

/-- Build a bar with a parsed date. -/
def mkBar (s : String) (d : Nat) (o h l c v : ℚ) : Bar :=
  { symbol := s, ts := some d, op := o, hi := h, lo := l, cl := c, vol := v }

/-- Six daily bars of entity `A`: at the last bar the predicates of rule 7
(`Turn Around (Buy)`) and rule 9 (`Reverse (Buy)`) are simultaneously true. -/
def c2bars : List Bar :=
  [mkBar "A" 0 (21/2) 11 10 (21/2) 600000,
   mkBar "A" 1 (21/2) 11 10 (21/2) 600000,
   mkBar "A" 2 (21/2) 11 10 (21/2) 600000,
   mkBar "A" 3 (21/2) 11 10 (21/2) 600000,
   mkBar "A" 4 (21/2) 11 10 10 600000,
   mkBar "A" 5 (99/10) (103/10) (19/2) (51/5) 800000]

/-- 21 daily bars of entity `B`: bar 21 satisfies every condition of claim
C4's characterisation of `U-Turn (Buy)` (including close above its *own*
open), but its close (101) is below the previous day's open (200). -/
def c4bars : List Bar :=
  ((List.range 19).map (fun i => mkBar "B" i 100 101 95 100 100))
  ++ [mkBar "B" 19 200 201 99 100 100, mkBar "B" 20 98 102 90 101 130]

/-- Two entities: `A` with three high-volume bars, then `B`.  Only `A`'s
bars differ from `c3bars2`. -/
def c3bars1 : List Bar :=
  [mkBar "A" 0 10 10 10 10 900000,
   mkBar "A" 1 10 10 10 10 900000,
   mkBar "A" 2 10 10 10 10 900000,
   mkBar "B" 0 10 10 10 10 10,
   mkBar "B" 1 10 10 10 10 10]

/-- Same `B` bars as `c3bars1`, but entity `A` carries volume 5. -/
def c3bars2 : List Bar :=
  [mkBar "A" 0 10 10 10 10 5,
   mkBar "A" 1 10 10 10 10 5,
   mkBar "A" 2 10 10 10 10 5,
   mkBar "B" 0 10 10 10 10 10,
   mkBar "B" 1 10 10 10 10 10]

/-- Entity `Y`, one trading day in each of three consecutive W-FRI weeks;
week 3 closes above week 2's high and above week 1's close on volume
700000, but at 105 it does not exceed 101% of its own week open 104. -/
def c6bars : List Bar :=
  [mkBar "Y" 1 100 101 99 100 600000,
   mkBar "Y" 8 100 102 99 100 600000,
   mkBar "Y" 15 104 106 103 105 700000]

/-- Entity `Z`, three weekly bars whose third week satisfies rule 13
(`3-Week Reversal (Buy)`). -/
def c5bars : List Bar :=
  [mkBar "Z" 1 110 111 100 105 600000,
   mkBar "Z" 8 104 106 95 100 600000,
   mkBar "Z" 15 100 112 99 111 700000]

/-- A table with one parseable and one unparseable TIMESTAMP. -/
def c9bars : List Bar :=
  [mkBar "A" 0 1 1 1 1 1,
   { symbol := "A", ts := none, op := 1, hi := 1, lo := 1, cl := 1, vol := 1 }]

/-- Entity `V`, 92 daily bars: constant volume 250000 for 90 bars, then a
volume spike (1100000) and a drop back to 500000, triggering rule 18
(`Volume Spike`) at the last bar. -/
def c10bars : List Bar :=
  ((List.range 90).map (fun i => mkBar "V" i 10 11 9 10 250000))
  ++ [mkBar "V" 90 10 11 9 10 1100000, mkBar "V" 91 10 11 9 10 500000]

/-- The prepared row of `c4bars`'s last bar. -/
def c4g : GRow := (gRows c4bars).getD 20 default

/-- The weekly derived row of `c6bars`'s third week. -/
def c6w : WRow := (wRows c6bars).getD 2 default

/-- The single weekly output row of `c5bars`. -/
def c5row : WOut := (runWeeklyOut c5bars).getD 0 default

/-- The single daily output row of `c2bars`. -/
def c5drow : OutRow := (runDailyOut c2bars).getD 0 default

/-- The single daily output row of `c10bars`. -/
def c10row : OutRow := (runDailyOut c10bars).getD 0 default

/-- Relation between two consecutive rows of the flat prepared table that
makes rules 5 and 6 fail on the right row when it belongs to entity `e`:
either the right row is the first row of its symbol block (no previous-day
data) or the left row's 6-week rolling extrema are NaN. -/
def rel8 (e : String) (a b : DRow) : Prop :=
  b.symbol = e → (b.pdl = none ∧ b.pdh = none) ∨ (a.min6w = none ∧ a.max6w = none)

/-! ## Helper lemmas -/

/-- `olt` holds exactly on two present values in order. -/
theorem olt_iff (x y : Option ℚ) :
    olt x y = true ↔ ∃ a b, x = some a ∧ y = some b ∧ a < b := by
  cases x <;> cases y <;> simp [olt]

/-- `ole` holds exactly on two present values in order. -/
theorem ole_iff (x y : Option ℚ) :
    ole x y = true ↔ ∃ a b, x = some a ∧ y = some b ∧ a ≤ b := by
  cases x <;> cases y <;> simp [ole]

/-- `oeq` holds exactly on two equal present values. -/
theorem oeq_iff (x y : Option ℚ) :
    oeq x y = true ↔ ∃ a, x = some a ∧ y = some a := by
  cases x <;> cases y <;> simp [oeq, eq_comm]

/-- `olt` with a NaN right operand is false. -/
theorem olt_none_right (x : Option ℚ) : olt x none = false := by
  cases x <;> rfl

/-- `ole` with a NaN left operand is false. -/
theorem ole_none_left (y : Option ℚ) : ole none y = false := rfl

/-- `ole` with a NaN right operand is false. -/
theorem ole_none_right (x : Option ℚ) : ole x none = false := by
  cases x <;> rfl

/-- `omul` of a present value. -/
theorem omul_some (a k : ℚ) : omul (some a) k = some (a * k) := rfl

/-- `omul` of NaN. -/
theorem omul_none (k : ℚ) : omul none k = none := rfl

/-- A sequence of overwriting mask assignments produces the label of the
*last* rule whose mask is true (and no label when none is true). -/
theorem assignSeq_acc {α : Type} (r : α) (rules : List ((α → Bool) × String))
    (acc : Option String) :
    rules.foldl (fun a p => if p.1 r then some p.2 else a) acc
      = match (rules.filter (fun p => p.1 r)).getLast? with
        | some p => some p.2
        | none => acc := by
  induction rules using List.reverseRecOn generalizing acc with
  | nil => rfl
  | append_singleton rs q ih =>
    rw [List.foldl_append, List.filter_append]
    by_cases hq : q.1 r = true
    · simp [hq, List.getLast?_concat]
    · simp only [List.foldl_cons, List.foldl_nil, hq, if_false, List.filter_cons,
        Bool.false_eq_true, if_neg, List.filter_nil, List.append_nil]
      rw [Bool.not_eq_true] at hq
      simp [hq, ih]

/-- `assignSeq` in terms of the last matching rule. -/
theorem assignSeq_spec {α : Type} (rules : List ((α → Bool) × String)) (r : α) :
    assignSeq rules r = ((rules.filter (fun p => p.1 r)).getLast?).map Prod.snd := by
  unfold assignSeq
  rw [assignSeq_acc]
  cases h : (rules.filter (fun p => p.1 r)).getLast? <;> simp

/-- Any assigned label comes from a rule of the list whose mask is true. -/
theorem assignSeq_some {α : Type} {rules : List ((α → Bool) × String)} {r : α} {n : String}
    (h : assignSeq rules r = some n) : ∃ p ∈ rules, p.1 r = true ∧ p.2 = n := by
  rw [assignSeq_spec] at h
  cases hl : (rules.filter (fun p => p.1 r)).getLast? with
  | none => rw [hl] at h; exact absurd h (by simp)
  | some p =>
    rw [hl] at h
    refine ⟨p, List.mem_of_mem_filter (List.mem_of_mem_getLast? hl), ?_, ?_⟩
    · exact (List.mem_filter.mp (List.mem_of_mem_getLast? hl)).2
    · simpa using h

/-! ## The claims -/

/-- C1: evaluation cannot terminate normally — the mask of rule 8
(`Turn Around (Sell)`, source line 203) reads the column `MAX_HIGH_1W`,
which is neither an input column, nor a column `prepare_data` creates
(its rolling highs are `MAX_HIGH_2W/3W/6W/10W` only), nor a column
`run_signals` itself assigns; in pandas this read raises `KeyError`
on every input, so `run_signals` never returns a result table. -/
theorem c1_missing_column :
    "MAX_HIGH_1W" ∈ run_signals_read_columns ∧
    "MAX_HIGH_1W" ∉ input_columns ++ prepare_data_assigned_columns
      ++ run_signals_assigned_columns := by
  decide

/-- C2 (amended): per row, the label is the one of the *last* rule in the
engine's evaluation order (1,2,3,4,5,6,7,8,9,15,18 daily; 11,13 weekly)
whose predicate is true — the highest-numbered, not the lowest-numbered —
because each `df.loc[mask, 'SIGNAL'] = name` overwrites the labels written
before it; at most one label per row (the SIGNAL column holds one value). -/
theorem c2_last_rule_wins :
    (∀ g : GRow,
      assignDaily g = ((dailyRules.filter (fun p => p.1 g)).getLast?).map Prod.snd) ∧
    (∀ w : WRow,
      assignWeekly w = ((weeklyRules.filter (fun p => p.1 w)).getLast?).map Prod.snd) :=
  ⟨fun g => assignSeq_spec dailyRules g, fun w => assignSeq_spec weeklyRules w⟩

set_option maxRecDepth 1000000 in
/-- C2 counterexample: at the last bar of `c2bars` the predicates of rule 7
(`Turn Around (Buy)`) and rule 9 (`Reverse (Buy)`) are both true, yet the
assigned label is rule 9's — the lowest-numbered rule does *not* win. -/
theorem c2_counterexample :
    mask_s7 ((gRows c2bars).getD 5 default) = true ∧
    mask_s9 ((gRows c2bars).getD 5 default) = true ∧
    (runDailyOut c2bars).map (fun r => r.signal) = [some "Reverse (Buy)"] := by
  refine ⟨by decide, by decide, by decide⟩

/-- C4 (amended): a derived row satisfies rule 1's predicate exactly when
close > 1.0015 × prior close, open < 0.9975 × prior low, close > the
*prior* day's open (the source line 111 compares `TDC > PDO`, not today's
own open), low ≤ the 20-bar rolling low, and volume > 1.2 × prior volume —
strict comparisons, false when a feature is missing; and a row is labeled
`U-Turn (Buy)` iff rule 1's predicate is true and every rule evaluated
after it (2-9, 15, 18) is false on that row. -/
theorem c4_uturn_buy :
    ∀ g : GRow,
      (mask_s1 g = true ↔
        ((∃ pc, g.pdc = some pc ∧ pc * (10015/10000) < g.cl) ∧
         (∃ pl, g.pdl = some pl ∧ g.op < pl * (9975/10000)) ∧
         (∃ po, g.pdo = some po ∧ po < g.cl) ∧
         (∃ m4, g.min4w = some m4 ∧ g.lo ≤ m4) ∧
         (∃ pv, g.pdvol = some pv ∧ pv * (12/10) < g.vol))) ∧
      (assignDaily g = some "U-Turn (Buy)" ↔
        (mask_s1 g = true ∧ mask_s2 g = false ∧ mask_s3 g = false ∧ mask_s4 g = false ∧
         mask_s5 g = false ∧ mask_s6 g = false ∧ mask_s7 g = false ∧ mask_s8 g = false ∧
         mask_s9 g = false ∧ mask_s15 g = false ∧ mask_s18 g = false)) := by
  intro g
  constructor
  · simp only [mask_s1, Bool.and_eq_true, olt_iff, ole_iff, omul, Option.map_eq_some']
    simp
    tauto
  · unfold assignDaily assignSeq dailyRules
    simp only [List.foldl_cons, List.foldl_nil]
    cases h18 : mask_s18 g <;> simp [h18]
    cases h15 : mask_s15 g <;> simp [h15]
    cases h9 : mask_s9 g <;> simp [h9]
    cases h8 : mask_s8 g <;> simp [h8]
    cases h7 : mask_s7 g <;> simp [h7]
    cases h6 : mask_s6 g <;> simp [h6]
    cases h5 : mask_s5 g <;> simp [h5]
    cases h4 : mask_s4 g <;> simp [h4]
    cases h3 : mask_s3 g <;> simp [h3]
    cases h2 : mask_s2 g <;> simp [h2]

set_option maxRecDepth 1000000 in
/-- C4 counterexample: the last bar of `c4bars` satisfies every condition of
the claim — close 101 is 1% above prior close 100, open 98 is below
0.9975 × prior low 99, close above its own open 98, low 90 equal to the
20-bar rolling low, volume 130 is 30% above prior volume 100 — yet no row
of the output is labeled `U-Turn (Buy)`: the source's rule 1 instead
requires close above the *prior* day's open, which is 200 here. -/
theorem c4_counterexample :
    c4g.pdc = some 100 ∧ c4g.pdl = some 99 ∧ c4g.pdo = some 200 ∧
    c4g.pdvol = some 100 ∧ c4g.min4w = some 90 ∧
    c4g.cl = 101 ∧ c4g.op = 98 ∧ c4g.lo = 90 ∧ c4g.vol = 130 ∧
    (100 : ℚ) * (10015/10000) ≤ 101 ∧ (98 : ℚ) ≤ 99 * (9975/10000) ∧
    ((98 : ℚ) < 101) ∧ ((90 : ℚ) ≤ 90) ∧ (100 : ℚ) * (12/10) ≤ 130 ∧
    (runDailyOut c4bars).filter (fun r => r.signal == some "U-Turn (Buy)") = [] := by
  decide

/-- C6 (amended): a week is labeled `3-Week Reversal (Buy)` exactly when
the *strict* variant of rule 13 holds: beside week close above the
prior-week high and above the two-weeks-prior close with weekly volume
> 500,000, the source also requires close > 101% of the week's own open
and a confirmed two-week downtrend (prior-week low below two-weeks-prior
low, and both prior weeks closing below their opens); the canonical
three-condition form of the claim is not sufficient. -/
theorem c6_three_week_reversal :
    ∀ w : WRow,
      (assignWeekly w = some "3-Week Reversal (Buy)" ↔ mask_w13 w = true) ∧
      (mask_w13 w = true ↔
        (∃ ph qc qo pl ql pc po,
          w.pwh = some ph ∧ w.qwc = some qc ∧ w.qwo = some qo ∧ w.pwl = some pl ∧
          w.qwl = some ql ∧ w.pwc = some pc ∧ w.pwo = some po ∧
          ph < w.twc ∧ qc < w.twc ∧ w.two * (101/100) < w.twc ∧
          pl < ql ∧ pc < po ∧ qc < qo ∧ (500000 : ℚ) < w.wvol)) := by
  intro w
  constructor
  · unfold assignWeekly assignSeq weeklyRules
    simp only [List.foldl_cons, List.foldl_nil]
    cases h13 : mask_w13 w <;> simp [h13]
  · cases hpwh : w.pwh <;> cases hqwc : w.qwc <;> cases hqwo : w.qwo <;>
      cases hpwl : w.pwl <;> cases hqwl : w.qwl <;> cases hpwc : w.pwc <;>
      cases hpwo : w.pwo <;>
      simp [mask_w13, olt, omul, hpwh, hqwc, hqwo, hpwl, hqwl, hpwc, hpwo,
        and_assoc]

set_option maxRecDepth 1000000 in
/-- C6 counterexample: the third week of `c6bars` closes at 105, above the
prior week's high 102 and the close 100 of two weeks earlier, on weekly
volume 700,000 > 500,000 — the canonical conditions of the claim — yet the
weekly output labels no week `3-Week Reversal (Buy)`: the source also
demands close > 101% of the week's own open (105 ≤ 104 × 1.01). -/
theorem c6_counterexample :
    c6w.pwh = some 102 ∧ c6w.qwc = some 100 ∧ c6w.twc = 105 ∧ c6w.two = 104 ∧
    c6w.wvol = 700000 ∧
    olt c6w.pwh (some c6w.twc) = true ∧ olt c6w.qwc (some c6w.twc) = true ∧
    (500000 : ℚ) < c6w.wvol ∧
    ¬ (c6w.two * (101/100) < c6w.twc) ∧
    (runWeeklyOut c6bars).filter (fun r => r.signal == some "3-Week Reversal (Buy)") = [] := by
  decide

/-- C5 (amended): in the daily engine every output row whose signal name
contains `'Buy'` gets stop-loss low × 0.995 and every other output row
gets high × 1.005; the weekly engine computes *no* stop-loss at all — its
output rows carry no STOP_LOSS value (the claimed week-low × 0.99 formula
appears nowhere in the source). -/
theorem c5_stop_loss :
    ∀ l : List Bar,
      (∀ r ∈ runDailyOut l,
        (strContains (r.signal.getD "") "Buy" = true →
          r.stop_loss = some (r.lo * (995/1000))) ∧
        (strContains (r.signal.getD "") "Buy" = false →
          r.stop_loss = some (r.hi * (1005/1000)))) ∧
      (∀ w ∈ runWeeklyOut l, w.stop_loss = none) := by
  intro l
  constructor
  · intro r hr
    unfold runDailyOut at hr
    rcases List.mem_map.mp hr with ⟨p, _, rfl⟩
    constructor <;> intro hb <;> simp only [addSL] at hb ⊢ <;> simp [hb]
  · intro w hw
    unfold runWeeklyOut at hw
    rcases List.mem_map.mp (List.mem_of_mem_filter hw) with ⟨p, _, rfl⟩
    rfl

set_option maxRecDepth 1000000 in
/-- C5 witness: the single output row of `c2bars` carries the Buy-polarity
signal `Reverse (Buy)` and its stop-loss is low × 0.995. -/
theorem c5_witness :
    c5drow.stop_loss = some (c5drow.lo * (995/1000)) :=
  ((c5_stop_loss c2bars).1 c5drow (by decide)).1 (by decide)

set_option maxRecDepth 1000000 in
/-- C5 counterexample: the weekly engine emits for `c5bars` a row labeled
`3-Week Reversal (Buy)` — a Buy-polarity signal with week-low 99 — whose
stop-loss is missing (`none`), not week-low × 0.99 = 98.01: the source's
`run_weekly_signals` never assigns a STOP_LOSS column. -/
theorem c5_counterexample :
    c5row ∈ runWeeklyOut c5bars ∧
    c5row.signal = some "3-Week Reversal (Buy)" ∧
    strContains "3-Week Reversal (Buy)" "Buy" = true ∧
    c5row.twl = 99 ∧ c5row.stop_loss = none ∧
    c5row.stop_loss ≠ some (c5row.twl * (99/100)) := by
  refine ⟨by decide, by decide, by decide, by decide, by decide, by decide⟩

/-- C10: every daily output row labeled `Volume Spike` — a signal name not
containing `'Buy'` — receives the Sell-polarity stop-loss high × 1.005,
because polarity is decided solely by the substring test
`result['SIGNAL'].str.contains('Buy')`. -/
theorem c10_volume_spike_stop_loss :
    ∀ (l : List Bar) (r : OutRow), r ∈ runDailyOut l →
      r.signal = some "Volume Spike" →
      r.stop_loss = some (r.hi * (1005/1000)) := by
  intro l r hr hs
  unfold runDailyOut at hr
  rcases List.mem_map.mp hr with ⟨p, _, rfl⟩
  have hps : p.signal = some "Volume Spike" := hs
  have hnb : strContains ((p.signal).getD "") "Buy" = false := by
    rw [hps]; decide
  simp [addSL, hnb]

set_option maxRecDepth 1000000 in
/-- C10 witness: the single output row of `c10bars` is labeled
`Volume Spike` and its stop-loss is high × 1.005. -/
theorem c10_witness :
    c10row.stop_loss = some (c10row.hi * (1005/1000)) :=
  c10_volume_spike_stop_loss c10bars c10row (by decide) (by decide)

/-- C9 (amended): a row whose TIMESTAMP fails to parse makes
`pd.to_datetime` (called without `errors=` at source line 16) raise, so
the whole evaluation aborts with an error — offending rows are *not*
dropped and the rest of the batch is *not* processed. -/
theorem c9_unparseable_timestamp_aborts :
    ∀ (l : List Bar) (b : Bar), b ∈ l → b.ts = none →
      run_signals l = Except.error parseErr ∧
      run_weekly_signals l = Except.error parseErr := by
  intro l b hb hts
  have hall : l.all (fun x => x.ts.isSome) = false := by
    rw [List.all_eq_false]
    exact ⟨b, hb, by simp [hts]⟩
  constructor <;> simp [run_signals, run_weekly_signals, hall]

/-- C9 witness: on `c9bars` (one good row, one unparseable row) both
engines abort with the parse error. -/
theorem c9_witness :
    run_signals c9bars = Except.error parseErr ∧
    run_weekly_signals c9bars = Except.error parseErr :=
  c9_unparseable_timestamp_aborts c9bars (c9bars.getD 1 default) (by decide) (by decide)

/-- C9 counterexample: on `c9bars` evaluation aborts with an error instead
of dropping the offending row and processing the remaining one. -/
theorem c9_counterexample :
    run_signals c9bars = Except.error parseErr ∧
    run_signals c9bars ≠ Except.ok (runDailyOut (c9bars.filter (fun b => b.ts.isSome))) := by
  constructor
  · rfl
  · intro h
    rw [show run_signals c9bars = Except.error parseErr from rfl] at h
    exact Except.noConfusion h

set_option maxRecDepth 1000000 in
/-- C3: cross-entity bleed.  `c3bars1` and `c3bars2` contain identical bars
for entity `B` and differ only in entity `A`'s volumes; yet the features
of `B`'s first row differ between the two runs: the ungrouped
`TOTTRDQTY.shift(2)` (rule 18) reads `A`'s volume (900000 resp. 5), and
the ungrouped `TOTTRDQTY.rolling(3).max()` (rule 15) is 900000 resp. 10 —
both depend on entity `A`'s bars. -/
theorem c3_cross_entity_bleed :
    ((gRows c3bars1).getD 3 default).symbol = "B" ∧
    ((gRows c3bars2).getD 3 default).symbol = "B" ∧
    c3bars1.filter (fun b => b.symbol == "B") = c3bars2.filter (fun b => b.symbol == "B") ∧
    ((gRows c3bars1).getD 3 default).vols2 = some 900000 ∧
    ((gRows c3bars2).getD 3 default).vols2 = some 5 ∧
    ((gRows c3bars1).getD 3 default).vol3max = some 900000 ∧
    ((gRows c3bars2).getD 3 default).vol3max = some 10 := by
  refine ⟨by decide, by decide, by decide, by decide, by decide, by decide, by decide⟩

theorem mem_deriveRows {bs : List Bar} {d : DRow} (hd : d ∈ deriveRows bs) :
    ∃ i, i < bs.length ∧ d = drow bs i := by
  rcases List.mem_map.mp hd with ⟨i, hi, rfl⟩
  exact ⟨i, List.mem_range.mp hi, rfl⟩

theorem drow_min6w_none {bs : List Bar} {i : Nat} (hi : i + 1 < 30) :
    (drow bs i).min6w = none ∧ (drow bs i).max6w = none := by
  constructor <;> simp [drow, roll, Nat.not_le.mpr hi]

theorem drow_zero_pd (bs : List Bar) :
    (drow bs 0).pdl = none ∧ (drow bs 0).pdh = none := ⟨rfl, rfl⟩

theorem mem_entityRows {l : List Bar} {s : String} {b : Bar} (hb : b ∈ entityRows l s) :
    b.symbol = s := by
  rw [entityRows, (List.perm_insertionSort barLE _).mem_iff] at hb
  simpa using (List.mem_filter.mp hb).2

theorem deriveRows_symbol {l : List Bar} {s : String} {d : DRow}
    (hd : d ∈ deriveRows (entityRows l s)) : d.symbol = s := by
  rcases mem_deriveRows hd with ⟨i, hi, rfl⟩
  show (((entityRows l s).getD i default)).symbol = s
  rw [List.getD_eq_getElem?_getD, List.getElem?_eq_getElem hi]
  exact mem_entityRows (List.getElem_mem hi)

theorem deriveRows_head {bs : List Bar} {r : DRow} (hr : (deriveRows bs).head? = some r) :
    r.pdl = none ∧ r.pdh = none := by
  cases hbs : bs.length with
  | zero => rw [deriveRows, hbs] at hr; exact absurd hr (by simp)
  | succ n =>
    rw [deriveRows, hbs, List.range_succ_eq_map] at hr
    simp only [List.map_cons, List.head?_cons, Option.some.injEq] at hr
    rw [← hr]
    exact drow_zero_pd bs

theorem chainAll {α : Type} {R : α → α → Prop} {xs : List α}
    (h : ∀ a ∈ xs, ∀ b, R a b) : List.Chain' R xs := by
  induction xs with
  | nil => exact List.chain'_nil
  | cons a tl ih =>
    rw [List.chain'_cons']
    exact ⟨fun y _ => h a (List.mem_cons_self _ _) y,
      ih (fun x hx b => h x (List.mem_cons_of_mem _ hx) b)⟩

theorem chainAllRight {α : Type} {R : α → α → Prop} {xs : List α}
    (h : ∀ b ∈ xs, ∀ a, R a b) : List.Chain' R xs := by
  induction xs with
  | nil => exact List.chain'_nil
  | cons a tl ih =>
    rw [List.chain'_cons']
    refine ⟨?_, ih (fun x hx b => h x (List.mem_cons_of_mem _ hx) b)⟩
    intro y hy
    exact h y (List.mem_cons_of_mem _ (List.mem_of_mem_head? hy)) a

theorem chain_flat (l : List Bar) (e : String) (he : (entityRows l e).length < 30) :
    ∀ ss : List String,
      List.Chain' (rel8 e) (ss.flatMap (fun s => deriveRows (entityRows l s))) ∧
      (∀ r, (ss.flatMap (fun s => deriveRows (entityRows l s))).head? = some r →
        r.pdl = none ∧ r.pdh = none) := by
  intro ss
  induction ss with
  | nil => exact ⟨List.chain'_nil, by simp⟩
  | cons s tl ih =>
    rw [List.flatMap_cons]
    have hblock : List.Chain' (rel8 e) (deriveRows (entityRows l s)) := by
      by_cases hse : s = e
      · subst hse
        apply chainAll
        intro a ha b
        intro _
        refine Or.inr ?_
        rcases mem_deriveRows ha with ⟨i, hi, rfl⟩
        exact drow_min6w_none (by omega)
      · apply chainAllRight
        intro b hb a hbe
        exact absurd ((deriveRows_symbol hb).symm.trans hbe) hse
    constructor
    · rw [List.chain'_append]
      refine ⟨hblock, ih.1, ?_⟩
      intro x _ y hy _
      exact Or.inl (ih.2 y hy)
    · intro r hr
      rw [List.head?_append] at hr
      rcases Option.or_eq_some.mp hr with h1 | ⟨h1, h2⟩
      · exact deriveRows_head h1
      · exact ih.2 r h2


theorem attachG_fullstop (e : String) :
    ∀ (p2 p1 : Option DRow) (rows : List DRow),
      List.Chain' (rel8 e) rows →
      (∀ b, rows.head? = some b → b.symbol = e →
        (b.pdl = none ∧ b.pdh = none) ∨
        (∃ a, p1 = some a ∧ a.min6w = none ∧ a.max6w = none)) →
      ∀ g ∈ attachG p2 p1 rows, g.symbol = e →
        mask_s5 g = false ∧ mask_s6 g = false := by
  intro p2 p1 rows
  induction rows generalizing p2 p1 with
  | nil => intro _ _ g hg; exact absurd hg (by simp [attachG])
  | cons r rest ih =>
    intro hch hinv g hg hge
    rw [show attachG p2 p1 (r :: rest) = mkG p2 p1 r :: attachG p1 (some r) rest from rfl]
      at hg
    rcases List.mem_cons.mp hg with rfl | hg'
    · have hsym : r.symbol = e := hge
      rcases hinv r rfl hsym with ⟨hpdl, hpdh⟩ | ⟨a, rfl, ha1, ha2⟩
      · constructor
        · simp [mask_s5, mkG, hpdl, ole_none_left]
        · simp [mask_s6, mkG, hpdh, ole_none_right]
      · constructor
        · simp [mask_s5, mkG, ha1, ole_none_right]
        · simp [mask_s6, mkG, ha2, ole_none_left]
    · have hch' := (List.chain'_cons'.mp hch)
      refine ih p1 (some r) hch'.2 ?_ g hg' hge
      intro b hb hbe
      rcases hch'.1 b hb hbe with hl | hr6
      · exact Or.inl hl
      · exact Or.inr ⟨r, rfl, hr6⟩

/-- C8: for an entity with fewer than 30 daily bars, every derived row's
30-bar rolling extrema (`MIN_LOW_6W`, `MAX_HIGH_6W`) are undefined, and no
output row of that entity is labeled `Full Stop (Buy)` or
`Full Stop (Sell)`: rules 5 and 6 compare against the (ungrouped) shift of
those features, and a comparison with an undefined operand is false — the
first row of the entity's block has no previous-day data, and every later
row reads the entity's own undefined extrema. -/
theorem c8_insufficient_history :
    ∀ (l : List Bar) (e : String), (l.filter (fun b => b.symbol == e)).length < 30 →
      (∀ d ∈ deriveRows (entityRows l e), d.min6w = none ∧ d.max6w = none) ∧
      (∀ r ∈ runDailyOut l, r.symbol = e →
        r.signal ≠ some "Full Stop (Buy)" ∧ r.signal ≠ some "Full Stop (Sell)") := by
  intro l e he
  have hlen : (entityRows l e).length < 30 := by
    rw [entityRows, (List.perm_insertionSort barLE _).length_eq]
    exact he
  constructor
  · intro d hd
    rcases mem_deriveRows hd with ⟨i, hi, rfl⟩
    exact drow_min6w_none (by omega)
  · intro r hr hrsym
    unfold runDailyOut at hr
    rcases List.mem_map.mp hr with ⟨q, hq, rfl⟩
    rcases List.mem_map.mp (List.mem_of_mem_filter hq) with ⟨g, hg, rfl⟩
    have hsym : g.symbol = e := hrsym
    have hchain := chain_flat l e hlen (symbolsOf l)
    have hmask := attachG_fullstop e none none (prepRows l) hchain.1
      (fun b hb hbe => Or.inl (hchain.2 b hb)) g hg hsym
    have hsig : (addSL (toOut g)).signal = assignDaily g := by
      simp [addSL, toOut]
    rw [hsig]
    constructor <;> intro hcon <;>
      rcases assignSeq_some hcon with ⟨p, hpmem, hptrue, hpname⟩ <;>
      simp only [dailyRules, List.mem_cons, List.not_mem_nil, or_false] at hpmem <;>
      rcases hpmem with rfl|rfl|rfl|rfl|rfl|rfl|rfl|rfl|rfl|rfl|rfl <;>
      dsimp only at hptrue hpname <;>
      first
        | exact absurd hpname (by decide)
        | (rw [hmask.1] at hptrue; exact Bool.noConfusion hptrue)
        | (rw [hmask.2] at hptrue; exact Bool.noConfusion hptrue)

set_option maxRecDepth 1000000 in
/-- C8 witness: entity `A` of `c2bars` has 6 < 30 bars; its single output
row is labeled `Reverse (Buy)`, not a Full Stop. -/
theorem c8_witness :
    (c2bars.filter (fun b => b.symbol == "A")).length < 30 ∧
    (c5drow.signal ≠ some "Full Stop (Buy)" ∧ c5drow.signal ≠ some "Full Stop (Sell)") :=
  ⟨by decide,
   (c8_insufficient_history c2bars "A" (by decide)).2 c5drow (by decide) (by decide)⟩

theorem foldl_rmax_init (f : Bar → ℚ) :
    ∀ (bs : List Bar) (a : ℚ), a ≤ bs.foldl (fun acc x => max acc (f x)) a := by
  intro bs
  induction bs with
  | nil => intro a; exact le_refl a
  | cons x tl ih => intro a; exact le_trans (le_max_left a (f x)) (ih (max a (f x)))

theorem foldl_rmax_mem (f : Bar → ℚ) :
    ∀ (bs : List Bar) (a : ℚ) (x : Bar), x ∈ bs →
      f x ≤ bs.foldl (fun acc y => max acc (f y)) a := by
  intro bs
  induction bs with
  | nil => intro a x hx; exact absurd hx (List.not_mem_nil x)
  | cons y tl ih =>
    intro a x hx
    rcases List.mem_cons.mp hx with rfl | hx'
    · exact le_trans (le_max_right a (f x)) (foldl_rmax_init f tl _)
    · exact ih _ x hx'

theorem foldl_rmax_eq (f : Bar → ℚ) :
    ∀ (bs : List Bar) (a : ℚ),
      bs.foldl (fun acc y => max acc (f y)) a = a ∨
      ∃ x ∈ bs, bs.foldl (fun acc y => max acc (f y)) a = f x := by
  intro bs
  induction bs with
  | nil => intro a; exact Or.inl rfl
  | cons y tl ih =>
    intro a
    rcases ih (max a (f y)) with h | ⟨x, hx, h⟩
    · rcases max_choice a (f y) with hm | hm
      · exact Or.inl (by rw [List.foldl_cons, h, hm])
      · exact Or.inr ⟨y, List.mem_cons_self _ _, by rw [List.foldl_cons, h, hm]⟩
    · exact Or.inr ⟨x, List.mem_cons_of_mem _ hx, by rw [List.foldl_cons, h]⟩

theorem foldl_rmin_init (f : Bar → ℚ) :
    ∀ (bs : List Bar) (a : ℚ), bs.foldl (fun acc x => min acc (f x)) a ≤ a := by
  intro bs
  induction bs with
  | nil => intro a; exact le_refl a
  | cons x tl ih => intro a; exact le_trans (ih (min a (f x))) (min_le_left a (f x))

theorem foldl_rmin_mem (f : Bar → ℚ) :
    ∀ (bs : List Bar) (a : ℚ) (x : Bar), x ∈ bs →
      bs.foldl (fun acc y => min acc (f y)) a ≤ f x := by
  intro bs
  induction bs with
  | nil => intro a x hx; exact absurd hx (List.not_mem_nil x)
  | cons y tl ih =>
    intro a x hx
    rcases List.mem_cons.mp hx with rfl | hx'
    · exact le_trans (foldl_rmin_init f tl _) (min_le_right a (f x))
    · exact ih _ x hx'

theorem foldl_rmin_eq (f : Bar → ℚ) :
    ∀ (bs : List Bar) (a : ℚ),
      bs.foldl (fun acc y => min acc (f y)) a = a ∨
      ∃ x ∈ bs, bs.foldl (fun acc y => min acc (f y)) a = f x := by
  intro bs
  induction bs with
  | nil => intro a; exact Or.inl rfl
  | cons y tl ih =>
    intro a
    rcases ih (min a (f y)) with h | ⟨x, hx, h⟩
    · rcases min_choice a (f y) with hm | hm
      · exact Or.inl (by rw [List.foldl_cons, h, hm])
      · exact Or.inr ⟨y, List.mem_cons_self _ _, by rw [List.foldl_cons, h, hm]⟩
    · exact Or.inr ⟨x, List.mem_cons_of_mem _ hx, by rw [List.foldl_cons, h]⟩

theorem foldl_rsum (f : Bar → ℚ) :
    ∀ (bs : List Bar) (a : ℚ),
      bs.foldl (fun acc x => acc + f x) a = a + (bs.map f).sum := by
  intro bs
  induction bs with
  | nil => intro a; simp
  | cons x tl ih =>
    intro a
    rw [List.foldl_cons, ih, List.map_cons, List.sum_cons]
    ring

theorem sorted_le_getLastD :
    ∀ (bs : List Bar) (b0 : Bar), List.Sorted barLE (b0 :: bs) →
      ∀ x ∈ b0 :: bs, barLE x (bs.getLastD b0) := by
  intro bs
  induction bs with
  | nil =>
    intro b0 _ x hx
    rcases List.mem_cons.mp hx with rfl | hx'
    · exact le_refl (tsD x)
    · exact absurd hx' (List.not_mem_nil x)
  | cons b1 tl ih =>
    intro b0 hs x hx
    rw [List.getLastD_cons]
    have hs' : List.Sorted barLE (b1 :: tl) := hs.tail
    rcases List.mem_cons.mp hx with rfl | hx'
    · exact le_trans (List.rel_of_sorted_cons hs b1 (List.mem_cons_self _ _))
        (ih b1 hs' b1 (List.mem_cons_self _ _))
    · exact ih b1 hs' x hx'

/-- C7: every weekly bar emitted by the W-FRI resampling of one entity's
date-sorted rows aggregates exactly its nonempty weekly bucket: week-open
is the chronologically first daily open of the week, week-close the last
daily close, week-high the maximum daily high, week-low the minimum daily
low, week-volume the sum of daily volumes, all bars belonging to the same
entity and week; and a week key is emitted iff its bucket is nonempty —
an empty week (whose OHLC aggregates are NaN) is dropped entirely by the
`.dropna()`, never emitted partially filled. -/
theorem c7_weekly_aggregates :
    (∀ (l : List Bar) (s : String) (w : WBar),
      w ∈ resampleEntity s (entityRows l s) →
      ∃ b0 bs, wbucket (entityRows l s) w.wkEnd = b0 :: bs ∧
        w.symbol = s ∧
        (∀ x ∈ b0 :: bs, x.symbol = s ∧ weekEndOf x = w.wkEnd) ∧
        (w.two = b0.op ∧ ∀ x ∈ b0 :: bs, tsD b0 ≤ tsD x) ∧
        (w.twc = (bs.getLastD b0).cl ∧ bs.getLastD b0 ∈ b0 :: bs ∧
          ∀ x ∈ b0 :: bs, tsD x ≤ tsD (bs.getLastD b0)) ∧
        ((∀ x ∈ b0 :: bs, x.hi ≤ w.twh) ∧ ∃ x ∈ b0 :: bs, w.twh = x.hi) ∧
        ((∀ x ∈ b0 :: bs, w.twl ≤ x.lo) ∧ ∃ x ∈ b0 :: bs, w.twl = x.lo) ∧
        w.wvol = ((b0 :: bs).map (fun x => x.vol)).sum) ∧
    (∀ (l : List Bar) (s : String) (k : Nat),
      (∃ w ∈ resampleEntity s (entityRows l s), w.wkEnd = k) ↔
        wbucket (entityRows l s) k ≠ []) := by
  constructor
  · intro l s w hw
    rcases List.mem_filterMap.mp hw with ⟨k, _, hagg⟩
    have hsorted : List.Sorted barLE (entityRows l s) :=
      List.sorted_insertionSort barLE _
    cases hbuck : wbucket (entityRows l s) k with
    | nil => rw [aggWeek, hbuck] at hagg; exact absurd hagg (by simp)
    | cons b0 bs =>
      rw [aggWeek, hbuck] at hagg
      have hrec := Option.some.inj hagg
      subst hrec
      have hsb : List.Sorted barLE (b0 :: bs) := by
        rw [← hbuck]
        exact hsorted.filter _
      have hmem : ∀ x ∈ b0 :: bs, x ∈ entityRows l s ∧ weekEndOf x = k := by
        intro x hx
        rw [← hbuck] at hx
        have := List.mem_filter.mp hx
        exact ⟨this.1, by simpa using this.2⟩
      refine ⟨b0, bs, hbuck, rfl, ?_, ⟨rfl, ?_⟩, ⟨rfl, ?_, ?_⟩, ⟨?_, ?_⟩, ⟨?_, ?_⟩, ?_⟩
      · intro x hx
        exact ⟨mem_entityRows (hmem x hx).1, (hmem x hx).2⟩
      · intro x hx
        rcases List.mem_cons.mp hx with rfl | hx'
        · exact le_refl (tsD x)
        · exact List.rel_of_sorted_cons hsb x hx'
      · exact List.getLastD_mem_cons bs b0
      · exact sorted_le_getLastD bs b0 hsb
      · intro x hx
        rcases List.mem_cons.mp hx with rfl | hx'
        · exact foldl_rmax_init (fun y => y.hi) bs x.hi
        · exact foldl_rmax_mem (fun y => y.hi) bs b0.hi x hx'
      · rcases foldl_rmax_eq (fun y => y.hi) bs b0.hi with h | ⟨x, hx, h⟩
        · exact ⟨b0, List.mem_cons_self _ _, h⟩
        · exact ⟨x, List.mem_cons_of_mem _ hx, h⟩
      · intro x hx
        rcases List.mem_cons.mp hx with rfl | hx'
        · exact foldl_rmin_init (fun y => y.lo) bs x.lo
        · exact foldl_rmin_mem (fun y => y.lo) bs b0.lo x hx'
      · rcases foldl_rmin_eq (fun y => y.lo) bs b0.lo with h | ⟨x, hx, h⟩
        · exact ⟨b0, List.mem_cons_self _ _, h⟩
        · exact ⟨x, List.mem_cons_of_mem _ hx, h⟩
      · rw [List.map_cons, List.sum_cons]
        exact foldl_rsum (fun y => y.vol) bs b0.vol
  · intro l s k
    constructor
    · rintro ⟨w, hw, rfl⟩
      rcases List.mem_filterMap.mp hw with ⟨k', _, hagg⟩
      cases hbuck : wbucket (entityRows l s) k' with
      | nil => rw [aggWeek, hbuck] at hagg; exact absurd hagg (by simp)
      | cons b0 bs =>
        rw [aggWeek, hbuck] at hagg
        have hrec := Option.some.inj hagg
        subst hrec
        simp only []
        rw [hbuck]
        exact List.cons_ne_nil b0 bs
    · intro hne
      cases hbuck : wbucket (entityRows l s) k with
      | nil => exact absurd hbuck hne
      | cons b0 bs =>
        have hb0 : b0 ∈ wbucket (entityRows l s) k := by
          rw [hbuck]; exact List.mem_cons_self b0 bs
        have hmem := List.mem_filter.mp hb0
        have hkey : weekEndOf b0 = k := by simpa using hmem.2
        have hkdedup : k ∈ ((entityRows l s).map weekEndOf).dedup := by
          rw [List.mem_dedup]
          exact List.mem_map.mpr ⟨b0, hmem.1, hkey⟩
        cases hagg : aggWeek s (entityRows l s) k with
        | none => rw [aggWeek, hbuck] at hagg; exact absurd hagg (by simp)
        | some w =>
          refine ⟨w, List.mem_filterMap.mpr ⟨k, hkdedup, hagg⟩, ?_⟩
          rw [aggWeek, hbuck] at hagg
          have hrec := Option.some.inj hagg
          rw [← hrec]

/-- C7 witness: `c6bars` has a trading day in the week ending on day 7, and
the weekly series of entity `Y` emits a bar for that week. -/
theorem c7_witness :
    ∃ w ∈ resampleEntity "Y" (entityRows c6bars "Y"), w.wkEnd = 7 :=
  (c7_weekly_aggregates.2 c6bars "Y" 7).mpr (by decide)
